import Mathlib

/-!
Shallow embedding of the llm-toolbridge orchestration core:
the `Tool` data model and its two `to_dict` serializers
(`src/llm_toolbridge/core/tool.py` and the older copy `src/core/tool.py`),
the `ToolBridge` registry and legacy provider loop
(`src/llm_toolbridge/core/bridge.py`, `src/core/bridge.py`), and the
adapter orchestration loop (`src/core/adapter.py`).

Python conventions modelled explicitly:
* Python dicts are insertion-ordered association lists with unique keys;
  assignment to an existing key keeps its position and replaces the value.
* Python exceptions are an inductive `Exc`; `str(e)` is `Exc.pyStr`, which
  for `KeyError` is the `repr` of the message (CPython renders `KeyError`
  via `repr` of its argument, so the message gains surrounding quotes).
* `fallible` code returns `Except Exc` values; state-mutating methods
  return the new state together with an optional raised exception.
-/

namespace LLMToolBridge

/-- Python runtime values (the fragment the core manipulates). -/
inductive PyVal : Type where
  | none : PyVal
  | bool : Bool → PyVal
  | int : Int → PyVal
  | str : String → PyVal
  | list : List PyVal → PyVal
  | dict : List (String × PyVal) → PyVal

/-- `v is None` check. -/
def PyVal.isNone : PyVal → Bool
  | .none => true
  | _ => false

/-- Python truthiness of a value. -/
def PyVal.truthy : PyVal → Bool
  | .none => false
  | .bool b => b
  | .int n => n != 0
  | .str s => s ≠ ""
  | .list xs => !xs.isEmpty
  | .dict d => !d.isEmpty

/-- Lookup in an insertion-ordered dict (first binding wins; keys are
unique when the list was built through `alSet`). -/
def alGet {α : Type} : List (String × α) → String → Option α
  | [], _ => Option.none
  | (k, v) :: d, key => if k = key then some v else alGet d key

/-- Python dict assignment `d[k] = v`: replace in place if the key is
present (keeping its position), otherwise append at the end. -/
def alSet {α : Type} : List (String × α) → String → α → List (String × α)
  | [], k, v => [(k, v)]
  | (k', v') :: d, k, v => if k' = k then (k', v) :: d else (k', v') :: alSet d k v

/-- Python dict key deletion `del d[k]` (first occurrence). -/
def alDel {α : Type} : List (String × α) → String → List (String × α)
  | [], _ => []
  | (k', v') :: d, k => if k' = k then d else (k', v') :: alDel d k

/-- Python `repr` of a string that contains no backslash and no control
characters (the only strings the core ever passes to `repr`): single
quotes unless the string contains a single quote and no double quote. -/
def pyReprStr (s : String) : String :=
  if s.toList.contains '\'' && !s.toList.contains '"' then "\"" ++ s ++ "\"" else "'" ++ s ++ "'"

/-- Python exceptions raised by the core (and by user tool functions). -/
inductive Exc : Type where
  | keyError : String → Exc
  | valueError : String → Exc
  | typeError : String → Exc
  | runtimeError : String → Option Exc → Exc
  | userError : String → Exc

/-- `str(e)`.  CPython's `KeyError.__str__` returns `repr(args[0])`, so a
`KeyError` message is rendered with surrounding quotes; every other
single-argument exception renders as its message. -/
def Exc.pyStr : Exc → String
  | .keyError m => pyReprStr m
  | .valueError m => m
  | .typeError m => m
  | .runtimeError m _ => m
  | .userError m => m

/-- The JSON-Schema `type` literal of a parameter
(`Literal["string", "number", "integer", "boolean", "array", "object"]`). -/
inductive ParamType : Type where
  | string | number | integer | boolean | array | object

def ParamType.toStr : ParamType → String
  | .string => "string"
  | .number => "number"
  | .integer => "integer"
  | .boolean => "boolean"
  | .array => "array"
  | .object => "object"

/-- `ParameterDefinition` (pydantic model, identical in both `tool.py` files). -/
structure ParameterDefinition : Type where
  type : ParamType
  description : String
  enum : Option (List PyVal) := Option.none
  required : Bool := true
  default : Option PyVal := Option.none

/-- `model_dump(exclude={"required"})`: pydantic serializes the remaining
fields in declaration order, keeping `None` values (`enum`/`default`). -/
def ParameterDefinition.dump (p : ParameterDefinition) : List (String × PyVal) :=
  [("type", PyVal.str p.type.toStr),
   ("description", PyVal.str p.description),
   ("enum", match p.enum with | some xs => PyVal.list xs | Option.none => PyVal.none),
   ("default", p.default.getD PyVal.none)]

/-- A parameter is given either as a `ParameterDefinition` or as a raw
schema dict (`Union[ParameterDefinition, Dict[str, Any]]`). -/
inductive ParamSpec : Type where
  | pd : ParameterDefinition → ParamSpec
  | raw : List (String × PyVal) → ParamSpec

/-- The `Tool` pydantic model (fields are identical in both `tool.py`
files).  `parameters` is a Python dict, kept as an ordered list of
name/spec pairs with unique names.  A bound function receives the
keyword-argument dict and either returns a value or raises. -/
structure Tool : Type where
  name : String
  description : String
  parameters : List (String × ParamSpec) := []
  version : String := "1.0.0"
  function : Option (List (String × PyVal) → Except Exc PyVal) := Option.none

/-- `Tool.invoke` (identical in both files): call the bound function with
the arguments, or raise `ValueError` when no function is attached. -/
def Tool.invoke (t : Tool) (arguments : List (String × PyVal)) : Except Exc PyVal :=
  match t.function with
  | Option.none => .error (.valueError ("Tool '" ++ t.name ++ "' has no associated function"))
  | some f => f arguments

namespace LTB

/-- One parameter's property entry in `Tool.to_dict`
(`src/llm_toolbridge/core/tool.py`): raw dicts are copied with
`None`-valued keys stripped, then a null `enum` is deleted (a no-op after
the strip, kept for fidelity); `ParameterDefinition`s are dumped without
`required` and stripped of `None` values the same way. -/
def propEntry : ParamSpec → List (String × PyVal)
  | .raw d =>
    let d1 := d.filter fun kv => !kv.2.isNone
    if (alGet d1 "enum").any PyVal.isNone then alDel d1 "enum" else d1
  | .pd p =>
    let d1 := p.dump.filter fun kv => !kv.2.isNone
    if (alGet d1 "enum").any PyVal.isNone then alDel d1 "enum" else d1

/-- Whether `to_dict` adds the parameter to the `required` list: for a raw
dict, Python truthiness of `param_dict.get("required", True)` evaluated on
the `None`-stripped copy; for a `ParameterDefinition`, its `required`
field. -/
def isReq : ParamSpec → Bool
  | .raw d => ((alGet (d.filter fun kv => !kv.2.isNone) "required").getD (PyVal.bool true)).truthy
  | .pd p => p.required

/-- `Tool.to_dict` of `src/llm_toolbridge/core/tool.py`: builds
`{name, description, parameters: {type, properties, required,
additionalProperties}}` and deletes the `required` key when the collected
list is empty.  The loop over `self.parameters.items()` appends to
`properties` and `required` in iteration order, which for unique parameter
names is the `map`/`filter` below. -/
def to_dict (t : Tool) : PyVal :=
  let props := t.parameters.map fun kv => (kv.1, PyVal.dict (propEntry kv.2))
  let req := (t.parameters.filter fun kv => isReq kv.2).map fun kv => kv.1
  PyVal.dict
    [("name", PyVal.str t.name),
     ("description", PyVal.str t.description),
     ("parameters", PyVal.dict
        ([("type", PyVal.str "object"), ("properties", PyVal.dict props)] ++
         (if req.isEmpty then [] else [("required", PyVal.list (req.map PyVal.str))]) ++
         [("additionalProperties", PyVal.bool false)]))]

end LTB

namespace CoreSrc

/-- One parameter's property entry in `Tool.to_dict` of
`src/core/tool.py`: a raw dict is stored verbatim (no `None` stripping);
a `ParameterDefinition` is dumped without `required`, keeping `None`
values (so `enum: null` survives). -/
def propEntry : ParamSpec → List (String × PyVal)
  | .raw d => d
  | .pd p => p.dump

/-- `required` membership test of `src/core/tool.py`: truthiness of
`param_def.get("required", True)` on the raw dict, or the
`ParameterDefinition.required` field. -/
def isReq : ParamSpec → Bool
  | .raw d => ((alGet d "required").getD (PyVal.bool true)).truthy
  | .pd p => p.required

/-- `Tool.to_dict` of `src/core/tool.py`: includes `version`, and the
`required` key is always present, even when the list is empty. -/
def to_dict (t : Tool) : PyVal :=
  PyVal.dict
    [("name", PyVal.str t.name),
     ("description", PyVal.str t.description),
     ("parameters", PyVal.dict
        [("type", PyVal.str "object"),
         ("properties", PyVal.dict
            (t.parameters.map fun kv => (kv.1, PyVal.dict (propEntry kv.2)))),
         ("required", PyVal.list
            (((t.parameters.filter fun kv => isReq kv.2).map fun kv => PyVal.str kv.1)))]),
     ("version", PyVal.str t.version)]

end CoreSrc

/-! ### Provider data model (`src/llm_toolbridge/core/provider.py`) -/

/-- A tool call parsed from a provider response. -/
structure ToolCall : Type where
  tool_name : String
  arguments : List (String × PyVal)
  call_id : Option String := Option.none

/-- The normalized LLM response. -/
structure LLMResponse : Type where
  content : Option String := Option.none
  tool_calls : List ToolCall := []

/-- The key a tool result is stored under: `tool_call.call_id or
tool_call.tool_name`. -/
def callKey (tc : ToolCall) : String := tc.call_id.getD tc.tool_name

/-- `for tool_call in calls: results[key] = proc(tool_call)` — fold the
per-call processor over a results dict. -/
def applyCalls (proc : ToolCall → PyVal) (acc : List (String × PyVal))
    (calls : List ToolCall) : List (String × PyVal) :=
  calls.foldl (fun a tc => alSet a (callKey tc) (proc tc)) acc

/-! ### Adapter orchestration (`src/core/adapter.py`)

The three abstract methods are the adapter's behaviour; each may raise.
`execute_with_tools` is instrumented with an event log so that temporal
claims (numbers of request rounds, arguments of each `prepare_request`,
which tool calls were processed) can be stated. -/

/-- An adapter's abstract methods (`prepare_request`, `execute_request`,
`parse_response`), over provider-specific request/response types `T`/`R`.
`prepare_request` receives the prompt, the optional tools list, the
optional tool-results dict and the extra keyword arguments. -/
structure BaseProviderAdapter (T R : Type) : Type where
  prepare_request : String → Option (List Tool) → Option (List (String × PyVal)) →
    List (String × PyVal) → Except Exc T
  execute_request : T → Except Exc R
  parse_response : R → Except Exc LLMResponse

/-- Events of one `execute_with_tools` run. -/
inductive AdapterEv : Type where
  | prep : Option (List Tool) → Option (List (String × PyVal)) → AdapterEv
  | exec : AdapterEv
  | parsed : AdapterEv
  | toolCall : String → AdapterEv

/-- `{tool.name: tool for tool in (tools or [])}` — later duplicates of a
name overwrite earlier ones. -/
def toolsDictOf (tools : Option (List Tool)) : List (String × Tool) :=
  (tools.getD []).foldl (fun d t => alSet d t.name t) []

/-- `BaseProviderAdapter.process_tool_call`.  The `try` block covers both
the registry lookup and the invocation, so the `except KeyError` arm
catches a `KeyError` raised *by the tool's bound function* as well as a
registry miss, producing the not-found message in both cases. -/
def process_tool_call (tool_call : ToolCall) (registered_tools : List (String × Tool)) :
    PyVal :=
  match alGet registered_tools tool_call.tool_name with
  | Option.none =>
    PyVal.dict [("error", PyVal.str ("Tool '" ++ tool_call.tool_name ++ "' not found")),
                ("success", PyVal.bool false)]
  | some tool =>
    match tool.invoke tool_call.arguments with
    | .ok v => PyVal.dict [("result", v), ("success", PyVal.bool true)]
    | .error (Exc.keyError _) =>
      PyVal.dict [("error", PyVal.str ("Tool '" ++ tool_call.tool_name ++ "' not found")),
                  ("success", PyVal.bool false)]
    | .error e =>
      PyVal.dict [("error", PyVal.str e.pyStr), ("success", PyVal.bool false)]

/-- The `try` block of `BaseProviderAdapter.execute_with_tools`: initial
round with the tools offered; if the parsed response carries tool calls,
process the first `max_tool_calls` of them and, if any results were
collected, issue the follow-up round with no tools and the results. -/
def adapterTryBody {T R : Type} (A : BaseProviderAdapter T R) (prompt : String)
    (tools : Option (List Tool)) (max_tool_calls : Int) (kwargs : List (String × PyVal)) :
    Except Exc LLMResponse × List AdapterEv :=
  let tools_dict := toolsDictOf tools
  match A.prepare_request prompt tools Option.none kwargs with
  | .error e => (.error e, [.prep tools Option.none])
  | .ok req =>
    match A.execute_request req with
    | .error e => (.error e, [.prep tools Option.none, .exec])
    | .ok resp =>
      match A.parse_response resp with
      | .error e => (.error e, [.prep tools Option.none, .exec, .parsed])
      | .ok llm =>
        if llm.tool_calls.isEmpty then
          (.ok llm, [.prep tools Option.none, .exec, .parsed])
        else
          let selected := llm.tool_calls.take max_tool_calls.toNat
          let tool_results := applyCalls (fun tc => process_tool_call tc tools_dict) [] selected
          let log1 := [AdapterEv.prep tools Option.none, .exec, .parsed] ++
            selected.map fun tc => AdapterEv.toolCall tc.tool_name
          if tool_results.isEmpty then (.ok llm, log1)
          else
            match A.prepare_request prompt Option.none (some tool_results) kwargs with
            | .error e => (.error e, log1 ++ [.prep Option.none (some tool_results)])
            | .ok req2 =>
              match A.execute_request req2 with
              | .error e => (.error e, log1 ++ [.prep Option.none (some tool_results), .exec])
              | .ok resp2 =>
                match A.parse_response resp2 with
                | .error e =>
                  (.error e, log1 ++ [.prep Option.none (some tool_results), .exec, .parsed])
                | .ok llm2 =>
                  (.ok llm2, log1 ++ [.prep Option.none (some tool_results), .exec, .parsed])

/-- `BaseProviderAdapter.execute_with_tools`, instrumented with an event
log: the `max_tool_calls` guard, the `try` body, and the
`except Exception` wrapper turning any escaping exception into
`RuntimeError(f"Tool execution failed: {str(e)}")` with the original as
its cause. -/
def execute_with_tools {T R : Type} (A : BaseProviderAdapter T R) (prompt : String)
    (tools : Option (List Tool)) (max_tool_calls : Int) (kwargs : List (String × PyVal)) :
    Except Exc LLMResponse × List AdapterEv :=
  if max_tool_calls < 1 then
    (.error (.valueError "max_tool_calls must be at least 1"), [])
  else
    (match (adapterTryBody A prompt tools max_tool_calls kwargs).1 with
     | .ok r => .ok r
     | .error e => .error (.runtimeError ("Tool execution failed: " ++ e.pyStr) (some e)),
     (adapterTryBody A prompt tools max_tool_calls kwargs).2)

/-- Number of `execute_request` calls in a log. -/
def execCount (log : List AdapterEv) : Nat :=
  (log.filter fun ev => match ev with | .exec => true | _ => false).length

/-- The arguments of the `prepare_request` calls in a log, in order. -/
def prepsOf (log : List AdapterEv) :
    List (Option (List Tool) × Option (List (String × PyVal))) :=
  log.filterMap fun ev => match ev with
    | .prep a b => some (a, b)
    | _ => Option.none

/-- The names of the tool calls processed during a run, in order. -/
def toolNamesOf (log : List AdapterEv) : List String :=
  log.filterMap fun ev => match ev with
    | .toolCall n => some n
    | _ => Option.none

/-- The first request round: `prepare_request(prompt, tools)` →
`execute_request` → `parse_response`. -/
def round1 {T R : Type} (A : BaseProviderAdapter T R) (prompt : String)
    (tools : Option (List Tool)) (kwargs : List (String × PyVal)) :
    Except Exc LLMResponse :=
  match A.prepare_request prompt tools Option.none kwargs with
  | .error e => .error e
  | .ok req =>
    match A.execute_request req with
    | .error e => .error e
    | .ok resp => A.parse_response resp

/-- The tool-results dict the loop collects from a first response: the
first `max_tool_calls` tool calls, processed against the name→Tool map
built from the supplied tools, keyed by `call_id or tool_name` (later
duplicates overwrite). -/
def collectedOf (tools : Option (List Tool)) (max_tool_calls : Int) (llm : LLMResponse) :
    List (String × PyVal) :=
  applyCalls (fun tc => process_tool_call tc (toolsDictOf tools)) []
    (llm.tool_calls.take max_tool_calls.toNat)

/-- The follow-up round: `prepare_request(prompt, None, tool_results)` →
`execute_request` → `parse_response`. -/
def round2 {T R : Type} (A : BaseProviderAdapter T R) (prompt : String)
    (tool_results : List (String × PyVal)) (kwargs : List (String × PyVal)) :
    Except Exc LLMResponse :=
  match A.prepare_request prompt Option.none (some tool_results) kwargs with
  | .error e => .error e
  | .ok req =>
    match A.execute_request req with
    | .error e => .error e
    | .ok resp => A.parse_response resp

/-! ### ToolBridge registry and resolution
(`src/llm_toolbridge/core/bridge.py`; the registry and `_resolve_tools`
are line-identical in `src/core/bridge.py`).

The registry is the insertion-ordered dict `self.tools`.  Mutating
methods return the new registry together with the raised exception, if
any (`ValueError` on duplicate registration). -/

/-- `ToolBridge.register_tool`: fail on a duplicate name, leaving the
registry unchanged; otherwise append the binding. -/
def register_tool (tools : List (String × Tool)) (t : Tool) :
    List (String × Tool) × Option Exc :=
  if (alGet tools t.name).isSome then
    (tools, some (.valueError ("Tool with name '" ++ t.name ++ "' is already registered")))
  else
    (tools ++ [(t.name, t)], Option.none)

/-- `ToolBridge.register_tools`: sequential registration; the first
failure propagates, keeping the registrations made before it. -/
def register_tools (tools : List (String × Tool)) :
    List Tool → List (String × Tool) × Option Exc
  | [] => (tools, Option.none)
  | t :: rest =>
    match register_tool tools t with
    | (tools', Option.none) => register_tools tools' rest
    | (tools', some e) => (tools', some e)

/-- `ToolBridge.get_tool`: `KeyError` when the name is not registered. -/
def get_tool (tools : List (String × Tool)) (name : String) : Except Exc Tool :=
  match alGet tools name with
  | Option.none => .error (.keyError ("No tool with name '" ++ name ++ "' is registered"))
  | some t => .ok t

/-- An element of the `tools` argument of `execute`/`_resolve_tools` at
runtime: a `Tool`, a name string, or a value of some other Python type
(carrying `type(x).__name__` for the error message). -/
inductive ToolOrStr : Type where
  | tool : Tool → ToolOrStr
  | str : String → ToolOrStr
  | other : String → ToolOrStr

/-- The loop body of `_resolve_tools` over an explicit list: first
offending element raises (`KeyError` from `get_tool` for an unknown name,
`TypeError` for a value that is neither `Tool` nor `str`). -/
def resolveItems (tools : List (String × Tool)) : List ToolOrStr → Except Exc (List Tool)
  | [] => .ok []
  | .tool t :: rest => (resolveItems tools rest).map fun r => t :: r
  | .str s :: rest =>
    match get_tool tools s with
    | .error e => .error e
    | .ok t => (resolveItems tools rest).map fun r => t :: r
  | .other ty :: _ => .error (.typeError ("Expected Tool or str, got " ++ ty))

/-- `ToolBridge._resolve_tools`: `None` means every registered tool in
registry order; an explicit list is resolved elementwise in order. -/
def resolve_tools (tools : List (String × Tool)) :
    Option (List ToolOrStr) → Except Exc (List Tool)
  | Option.none => .ok (tools.map Prod.snd)
  | some items => resolveItems tools items

/-! ### Legacy provider loops
(`ToolBridge._execute_with_provider` in `src/llm_toolbridge/core/bridge.py`
and `ToolBridge.execute` in `src/core/bridge.py`).

A provider is modelled as a deterministic, possibly stateful oracle: a
function from the full history of `generate` calls made so far to the
next response (or a raised exception).  Each run is instrumented with the
list of `generate` calls made together with the response each received. -/

/-- The arguments of one `Provider.generate` call. -/
structure GenCall : Type where
  prompt : String
  tools : List Tool
  tool_results : Option (List (String × PyVal)) := Option.none
  kwargs : List (String × PyVal) := []

/-- One generate round in the log: the call made and the response it got
(`none` when the provider raised). -/
structure GenRound : Type where
  call : GenCall
  resp : Option LLMResponse

/-- A provider behaviour: the response to a `generate` call, as a function
of the full call history including the current call. -/
def ProviderFn : Type := List GenCall → Except Exc LLMResponse

/-- One tool call's result in the legacy loops: `get_tool` then `invoke`
inside `try`; any exception is converted to
`{"error": str(e), "success": False}` (for a registry miss, `str(e)` of
the `KeyError` — the `repr`-quoted message), while a successful
invocation stores the raw result unwrapped. -/
def bridgeToolResult (tools : List (String × Tool)) (tc : ToolCall) : PyVal :=
  match (get_tool tools tc.tool_name).bind (fun t => t.invoke tc.arguments) with
  | .ok v => v
  | .error e => PyVal.dict [("error", PyVal.str e.pyStr), ("success", PyVal.bool false)]

/-- The tool-results dict after folding the given rounds' tool calls, in
order, starting from the empty dict (`tool_results = {}` before the
loop): each round's calls update the accumulated dict in place, so later
duplicate keys overwrite earlier ones and nothing is ever reset. -/
def accRounds (tools : List (String × Tool)) (rounds : List (List ToolCall)) :
    List (String × PyVal) :=
  rounds.foldl (fun acc calls => applyCalls (bridgeToolResult tools) acc calls) []

/-- The `while response.tool_calls and call_count < max_tool_calls` loop
of `_execute_with_provider`: the remaining fuel is
`max_tool_calls - call_count`.  Follow-up calls pass `tools=[]` and the
accumulated results. -/
def legacyLoop (gen : ProviderFn) (tools : List (String × Tool)) (prompt : String)
    (kwargs : List (String × PyVal)) :
    Nat → LLMResponse → List (String × PyVal) → List GenRound →
      Except Exc LLMResponse × List GenRound
  | fuel, response, tool_results, hist =>
    if response.tool_calls.isEmpty then (.ok response, hist)
    else
      match fuel with
      | 0 => (.ok response, hist)
      | fuel' + 1 =>
        let results' := applyCalls (bridgeToolResult tools) tool_results response.tool_calls
        let call : GenCall := ⟨prompt, [], some results', kwargs⟩
        match gen ((hist.map GenRound.call) ++ [call]) with
        | .error e => (.error e, hist ++ [⟨call, Option.none⟩])
        | .ok response' =>
          legacyLoop gen tools prompt kwargs fuel' response' results' (hist ++ [⟨call, some response'⟩])

/-- `ToolBridge._execute_with_provider` (`src/llm_toolbridge/core/bridge.py`):
initial `generate(prompt, tools, **kwargs)`, then the loop. -/
def execute_with_provider (gen : ProviderFn) (tools : List (String × Tool))
    (prompt : String) (resolved : List Tool) (max_tool_calls : Int)
    (kwargs : List (String × PyVal)) : Except Exc LLMResponse × List GenRound :=
  let call0 : GenCall := ⟨prompt, resolved, Option.none, kwargs⟩
  match gen [call0] with
  | .error e => (.error e, [⟨call0, Option.none⟩])
  | .ok response =>
    legacyLoop gen tools prompt kwargs max_tool_calls.toNat response [] [⟨call0, some response⟩]

/-- The loop of the older `ToolBridge.execute` (`src/core/bridge.py`):
identical round structure, but every follow-up `generate` re-offers the
resolved tools, and there are no extra keyword arguments. -/
def coreLoop (gen : ProviderFn) (tools : List (String × Tool)) (prompt : String)
    (resolved : List Tool) :
    Nat → LLMResponse → List (String × PyVal) → List GenRound →
      Except Exc LLMResponse × List GenRound
  | fuel, response, tool_results, hist =>
    if response.tool_calls.isEmpty then (.ok response, hist)
    else
      match fuel with
      | 0 => (.ok response, hist)
      | fuel' + 1 =>
        let results' := applyCalls (bridgeToolResult tools) tool_results response.tool_calls
        let call : GenCall := ⟨prompt, resolved, some results', []⟩
        match gen ((hist.map GenRound.call) ++ [call]) with
        | .error e => (.error e, hist ++ [⟨call, Option.none⟩])
        | .ok response' =>
          coreLoop gen tools prompt resolved fuel' response' results' (hist ++ [⟨call, some response'⟩])

/-- `ToolBridge.execute` of `src/core/bridge.py`: resolve, initial
`generate(prompt, tools=resolved)`, then the re-offering loop. -/
def core_execute (gen : ProviderFn) (tools : List (String × Tool)) (prompt : String)
    (toolsArg : Option (List ToolOrStr)) (max_tool_calls : Int) :
    Except Exc LLMResponse × List GenRound :=
  match resolve_tools tools toolsArg with
  | .error e => (.error e, [])
  | .ok resolved =>
    let call0 : GenCall := ⟨prompt, resolved, Option.none, []⟩
    match gen [call0] with
    | .error e => (.error e, [⟨call0, Option.none⟩])
    | .ok response =>
      coreLoop gen tools prompt resolved max_tool_calls.toNat response [] [⟨call0, some response⟩]

/-- Lookup inside a `PyVal` dict (and `none` on non-dicts). -/
def pyDictGet (v : PyVal) (k : String) : Option PyVal :=
  match v with
  | .dict d => alGet d k
  | _ => Option.none

/-! ### Association-list lemmas -/

lemma alGet_mem {α : Type} {d : List (String × α)} {k : String} {v : α}
    (h : alGet d k = some v) : (k, v) ∈ d := by
  induction d with
  | nil => simp [alGet] at h
  | cons kv rest ih =>
    obtain ⟨k', v'⟩ := kv
    by_cases hk : k' = k
    · subst hk
      simp [alGet] at h
      simp [h]
    · simp [alGet, hk] at h
      exact List.mem_cons_of_mem _ (ih h)

lemma mem_alDel {α : Type} {d : List (String × α)} {key k : String} {v : α}
    (h : (k, v) ∈ alDel d key) : (k, v) ∈ d := by
  induction d with
  | nil => simp [alDel] at h
  | cons kv rest ih =>
    obtain ⟨k', v'⟩ := kv
    by_cases hk : k' = key
    · simp [alDel, hk] at h
      exact List.mem_cons_of_mem _ h
    · simp [alDel, hk] at h
      rcases h with h | h
      · simp [h]
      · exact List.mem_cons_of_mem _ (ih h)

lemma alGet_filter_none {α : Type} {p : String × α → Bool} {d : List (String × α)}
    {k : String} (h : alGet d k = Option.none) :
    alGet (d.filter p) k = Option.none := by
  induction d with
  | nil => simp [alGet]
  | cons kv rest ih =>
    obtain ⟨k', v'⟩ := kv
    by_cases hk : k' = k
    · simp [alGet, hk] at h
    · simp [alGet, hk] at h
      by_cases hp : p (k', v')
      · simp [List.filter_cons, hp, alGet, hk]
        exact ih h
      · simp [List.filter_cons, hp]
        exact ih h

lemma alGet_filter_some {α : Type} {p : String × α → Bool} {d : List (String × α)}
    {k : String} {v : α} (h : alGet d k = some v) (hp : p (k, v) = true) :
    alGet (d.filter p) k = some v := by
  induction d with
  | nil => simp [alGet] at h
  | cons kv rest ih =>
    obtain ⟨k', v'⟩ := kv
    by_cases hk : k' = k
    · subst hk
      simp [alGet] at h
      subst h
      simp [List.filter_cons, hp, alGet]
    · simp [alGet, hk] at h
      by_cases hq : p (k', v')
      · simp [List.filter_cons, hq, alGet, hk]
        exact ih h
      · simp [List.filter_cons, hq]
        exact ih h

lemma alGet_append_some {α : Type} {d d' : List (String × α)} {k : String} {v : α}
    (h : alGet d k = some v) : alGet (d ++ d') k = some v := by
  induction d with
  | nil => simp [alGet] at h
  | cons kv rest ih =>
    obtain ⟨k', v'⟩ := kv
    by_cases hk : k' = k
    · subst hk
      simp [alGet] at h ⊢
      exact h
    · simp [alGet, hk] at h ⊢
      exact ih h

lemma alSet_ne_nil {α : Type} (d : List (String × α)) (k : String) (v : α) :
    alSet d k v ≠ [] := by
  cases d with
  | nil => simp [alSet]
  | cons kv rest =>
    obtain ⟨k', v'⟩ := kv
    by_cases hk : k' = k <;> simp [alSet, hk]

lemma nodupKeys_mem_eq {α : Type} {l : List (String × α)} {k : String} {a b : α}
    (hnd : (l.map Prod.fst).Nodup) (ha : (k, a) ∈ l) (hb : (k, b) ∈ l) : a = b := by
  induction l with
  | nil => simp at ha
  | cons kv rest ih =>
    obtain ⟨k', v'⟩ := kv
    simp only [List.map_cons, List.nodup_cons] at hnd
    rcases List.mem_cons.mp ha with ha1 | ha1 <;> rcases List.mem_cons.mp hb with hb1 | hb1
    · exact congrArg Prod.snd (ha1.trans hb1.symm)
    · have hk : k' = k := (congrArg Prod.fst ha1).symm
      exact absurd (List.mem_map_of_mem Prod.fst hb1) (hk ▸ hnd.1)
    · have hk : k' = k := (congrArg Prod.fst hb1).symm
      exact absurd (List.mem_map_of_mem Prod.fst ha1) (hk ▸ hnd.1)
    · exact ih hnd.2 ha1 hb1

/-! ### Claim C5 -/

/-- The claim's notion of a parameter "explicitly marked
`required=false`": the pydantic field is `false`, or the raw dict binds
`"required"` to Python `False`. -/
def explicitlyNotRequired : ParamSpec → Prop
  | .pd p => p.required = false
  | .raw d => alGet d "required" = some (PyVal.bool false)

/-- Well-formedness of a raw parameter dict as the schema intends: the
`"required"` key, when present, holds a boolean. -/
def wfSpecB : ParamSpec → Bool
  | .pd _ => true
  | .raw d =>
    match alGet d "required" with
    | Option.none => true
    | some (PyVal.bool _) => true
    | some _ => false

/-- The `required` name list collected by the llm_toolbridge `to_dict`. -/
def requiredNames (t : Tool) : List String :=
  (t.parameters.filter fun kv => LTB.isReq kv.2).map fun kv => kv.1

lemma isReq_iff_of_wf {spec : ParamSpec} (hwf : wfSpecB spec = true) :
    LTB.isReq spec = true ↔ ¬ explicitlyNotRequired spec := by
  cases spec with
  | pd p =>
    cases hp : p.required <;> simp [LTB.isReq, explicitlyNotRequired, hp]
  | raw d =>
    simp only [wfSpecB] at hwf
    cases hreq : alGet d "required" with
    | none =>
      have hf := alGet_filter_none (p := fun kv : String × PyVal => !kv.2.isNone) hreq
      simp [LTB.isReq, explicitlyNotRequired, hreq, hf, PyVal.truthy]
    | some v =>
      rw [hreq] at hwf
      cases v with
      | bool b =>
        have : alGet (d.filter fun kv => !kv.2.isNone) "required" = some (PyVal.bool b) :=
          alGet_filter_some hreq (by simp [PyVal.isNone])
        cases b <;> simp [LTB.isReq, explicitlyNotRequired, hreq, this, PyVal.truthy]
      | none => simp at hwf
      | int n => simp at hwf
      | str s => simp at hwf
      | list xs => simp at hwf
      | dict xs => simp at hwf

lemma propEntry_no_null_enum {spec : ParamSpec} {v : PyVal}
    (h : alGet (LTB.propEntry spec) "enum" = some v) : v.isNone = false := by
  have hmem : ("enum", v) ∈ LTB.propEntry spec := alGet_mem h
  have hfil : ∀ d1 : List (String × PyVal),
      ("enum", v) ∈ (if (alGet (d1.filter fun kv => !kv.2.isNone) "enum").any PyVal.isNone
        then alDel (d1.filter fun kv => !kv.2.isNone) "enum"
        else d1.filter fun kv => !kv.2.isNone) →
      v.isNone = false := by
    intro d1 hm
    have hm' : ("enum", v) ∈ d1.filter fun kv => !kv.2.isNone := by
      by_cases hc : (alGet (d1.filter fun kv => !kv.2.isNone) "enum").any PyVal.isNone
      · rw [if_pos hc] at hm
        exact mem_alDel hm
      · rwa [if_neg hc] at hm
    have := List.of_mem_filter hm'
    simpa using this
  cases spec with
  | raw d => exact hfil d (by simpa [LTB.propEntry] using hmem)
  | pd p => exact hfil p.dump (by simpa [LTB.propEntry] using hmem)

/-- Claim C5 (amended): for the llm_toolbridge `Tool.to_dict` (parameter
names unique, raw `"required"` markers boolean), a parameter name is in
`parameters.required` iff the parameter is not explicitly marked
`required=false`; the `"required"` key is present exactly when the
collected list is nonempty (holding that list); and no property ever
carries an `"enum": null` entry.  (The legacy `src/core` implementation
violates the last two points — see the counterexample.) -/
theorem C5_to_dict_llm_toolbridge (t : Tool)
    (hnd : (t.parameters.map Prod.fst).Nodup)
    (hwf : ∀ kv ∈ t.parameters, wfSpecB kv.2 = true) :
    (∀ n spec, (n, spec) ∈ t.parameters →
      (n ∈ requiredNames t ↔ ¬ explicitlyNotRequired spec)) ∧
    (pyDictGet ((pyDictGet (LTB.to_dict t) "parameters").getD PyVal.none) "required" =
      (if (requiredNames t).isEmpty then Option.none
       else some (PyVal.list ((requiredNames t).map PyVal.str)))) ∧
    (∀ n prop,
      pyDictGet ((pyDictGet ((pyDictGet (LTB.to_dict t) "parameters").getD
          PyVal.none) "properties").getD PyVal.none) n = some prop →
      pyDictGet prop "enum" ≠ some PyVal.none) := by
  refine ⟨?_, ?_, ?_⟩
  · intro n spec hmem
    constructor
    · intro hn
      simp only [requiredNames, List.mem_map] at hn
      obtain ⟨⟨n', spec'⟩, hkv, hfst⟩ := hn
      simp only at hfst
      subst hfst
      have hkv' := List.mem_filter.mp hkv
      have heq : spec' = spec := nodupKeys_mem_eq hnd hkv'.1 hmem
      subst heq
      exact (isReq_iff_of_wf (hwf _ hmem)).mp hkv'.2
    · intro hnot
      have hr : LTB.isReq spec = true := (isReq_iff_of_wf (hwf _ hmem)).mpr hnot
      exact List.mem_map.mpr ⟨(n, spec), List.mem_filter.mpr ⟨hmem, hr⟩, rfl⟩
  · by_cases h : (requiredNames t).isEmpty
    · simp only [requiredNames] at h
      simp [LTB.to_dict, pyDictGet, alGet, h, requiredNames]
    · simp only [requiredNames] at h
      simp [LTB.to_dict, pyDictGet, alGet, h, requiredNames]
  · intro n prop hprop hcontra
    simp [LTB.to_dict, pyDictGet, alGet] at hprop
    obtain ⟨⟨n', spec⟩, hm, heq⟩ := List.mem_map.mp (alGet_mem hprop)
    have hp : PyVal.dict (LTB.propEntry spec) = prop := congrArg Prod.snd heq
    rw [← hp] at hcontra
    simp only [pyDictGet] at hcontra
    have := propEntry_no_null_enum hcontra
    simp [PyVal.isNone] at this

/-- A parameter explicitly marked non-required, with `enum` unset. -/
def paramB : ParameterDefinition := { type := .number, description := "optional b", required := false }

/-- A tool whose single parameter is optional: the collected `required`
list is empty and the parameter's `enum` is unset. -/
def c5Tool : Tool := { name := "t", description := "d", parameters := [("b", .pd paramB)] }

/-- Claim C5 counterexample: the claim fails for the second (legacy)
`Tool.to_dict` in `src/core/tool.py` — on a tool with one optional
parameter, the output keeps the `"required"` key holding an empty list,
and the serialized parameter carries an `"enum": null` entry. -/
theorem C5_counterexample :
    pyDictGet ((pyDictGet (CoreSrc.to_dict c5Tool) "parameters").getD PyVal.none)
      "required" = some (PyVal.list []) ∧
    (pyDictGet ((pyDictGet ((pyDictGet (CoreSrc.to_dict c5Tool) "parameters").getD
        PyVal.none) "properties").getD PyVal.none) "b").bind
      (fun prop => pyDictGet prop "enum") = some PyVal.none :=
  ⟨rfl, rfl⟩

/-- A required parameter (default `required=true`). -/
def paramA : ParameterDefinition := { type := .number, description := "required a" }

/-- A tool with one required and one optional parameter. -/
def c5wTool : Tool :=
  { name := "w", description := "d", parameters := [("a", .pd paramA), ("b", .pd paramB)] }

/-- Witness for C5: the amended theorem applied to a concrete tool. -/
theorem C5_witness :
    ("a" ∈ requiredNames c5wTool ↔ ¬ explicitlyNotRequired (.pd paramA)) ∧
    pyDictGet ((pyDictGet (LTB.to_dict c5wTool) "parameters").getD PyVal.none) "required" =
      (if (requiredNames c5wTool).isEmpty then Option.none
       else some (PyVal.list ((requiredNames c5wTool).map PyVal.str))) := by
  have h := C5_to_dict_llm_toolbridge c5wTool (by decide)
    (by intro kv hkv; fin_cases hkv <;> rfl)
  exact ⟨h.1 "a" (.pd paramA) (by simp [c5wTool]), h.2.1⟩

/-! ### Claim C3 -/

/-- A registered tool whose bound function raises `KeyError("boom")`. -/
def c3Tool : Tool :=
  { name := "ke", description := "k", function := some fun _ => .error (.keyError "boom") }

/-- Claim C3 counterexample: with the tool registered and its bound
function raising `KeyError("boom")`, `process_tool_call` returns the
not-found message — not the exception's string message — because the
`except KeyError` arm also catches `KeyError`s raised inside `invoke`. -/
theorem C3_counterexample :
    process_tool_call ⟨"ke", [], Option.none⟩ [("ke", c3Tool)] =
      PyVal.dict [("error", PyVal.str "Tool 'ke' not found"), ("success", PyVal.bool false)] ∧
    "Tool 'ke' not found" ≠ Exc.pyStr (.keyError "boom") :=
  ⟨rfl, by decide⟩

/-- Claim C3 (amended): `process_tool_call` never raises (it is a total
function into result dicts).  A registry miss yields the
`Tool '<name>' not found` error result; a bound function raising
`KeyError` yields the same not-found result (the broad `except KeyError`
arm catches it); any other exception yields that exception's string
message with `success=false`; a successful invocation yields
`{"result": value, "success": true}`. -/
theorem C3_process_tool_call (tc : ToolCall) (reg : List (String × Tool)) :
    (alGet reg tc.tool_name = Option.none →
      process_tool_call tc reg =
        PyVal.dict [("error", PyVal.str ("Tool '" ++ tc.tool_name ++ "' not found")),
                    ("success", PyVal.bool false)]) ∧
    (∀ tool, alGet reg tc.tool_name = some tool →
      (∀ v, tool.invoke tc.arguments = .ok v →
        process_tool_call tc reg =
          PyVal.dict [("result", v), ("success", PyVal.bool true)]) ∧
      (∀ m, tool.invoke tc.arguments = .error (.keyError m) →
        process_tool_call tc reg =
          PyVal.dict [("error", PyVal.str ("Tool '" ++ tc.tool_name ++ "' not found")),
                      ("success", PyVal.bool false)]) ∧
      (∀ e, tool.invoke tc.arguments = .error e → (∀ m, e ≠ .keyError m) →
        process_tool_call tc reg =
          PyVal.dict [("error", PyVal.str e.pyStr), ("success", PyVal.bool false)])) := by
  constructor
  · intro h
    simp [process_tool_call, h]
  · intro tool htool
    refine ⟨?_, ?_, ?_⟩
    · intro v hv
      simp [process_tool_call, htool, hv]
    · intro m hm
      simp [process_tool_call, htool, hm]
    · intro e he hne
      cases e
      case keyError m => exact absurd rfl (hne m)
      all_goals simp [process_tool_call, htool, he]

/-- A registered tool whose bound function returns `7`. -/
def c3AddTool : Tool :=
  { name := "add", description := "a", function := some fun _ => .ok (.int 7) }

/-- Witness for C3: the amended theorem applied to a concrete successful
invocation. -/
theorem C3_witness :
    process_tool_call ⟨"add", [], Option.none⟩ [("add", c3AddTool)] =
      PyVal.dict [("result", PyVal.int 7), ("success", PyVal.bool true)] :=
  ((C3_process_tool_call ⟨"add", [], Option.none⟩ [("add", c3AddTool)]).2
    c3AddTool rfl).1 (PyVal.int 7) rfl

/-! ### Claim C6 -/

lemma register_tool_preserves {tools : List (String × Tool)} {t : Tool} {n : String}
    {t₀ : Tool} (h : alGet tools n = some t₀) :
    alGet (register_tool tools t).1 n = some t₀ := by
  by_cases hd : (alGet tools t.name).isSome
  · simpa [register_tool, hd] using h
  · simp only [register_tool, hd, Bool.false_eq_true, if_neg, if_false]
    exact alGet_append_some h

lemma register_tools_preserves : ∀ (ts : List Tool) (tools : List (String × Tool))
    (n : String) (t₀ : Tool), alGet tools n = some t₀ →
    alGet (register_tools tools ts).1 n = some t₀ := by
  intro ts
  induction ts with
  | nil =>
    intro tools n t₀ h
    simpa [register_tools] using h
  | cons t rest ih =>
    intro tools n t₀ h
    have hp := register_tool_preserves (t := t) h
    simp only [register_tools]
    rcases hr : register_tool tools t with ⟨tools', e⟩
    rw [hr] at hp
    cases e with
    | none => exact ih tools' n t₀ hp
    | some e' => exact hp

lemma register_tools_append : ∀ (ts₁ ts₂ : List Tool) (tools : List (String × Tool)),
    register_tools tools (ts₁ ++ ts₂) =
      (match register_tools tools ts₁ with
       | (tools1, Option.none) => register_tools tools1 ts₂
       | (tools1, some e) => (tools1, some e)) := by
  intro ts₁
  induction ts₁ with
  | nil =>
    intro ts₂ tools
    simp [register_tools]
  | cons t rest ih =>
    intro ts₂ tools
    simp only [List.cons_append, register_tools]
    rcases hr : register_tool tools t with ⟨tools', e⟩
    cases e with
    | none => exact ih ts₂ tools'
    | some e' => rfl

/-- Claim C6: registering a duplicate name fails with the
already-registered `ValueError` and leaves the registry unchanged (the
pre-existing binding untouched); registering a fresh name appends the
binding; any `register_tools` run preserves every existing binding (so a
failure partway keeps the tools registered earlier in the same call, and
each name stays mapped to the first successfully registered tool of that
name); and `register_tools` over a concatenation runs the first part and
continues with the second only if the first succeeded. -/
theorem C6_registry_first_wins (tools : List (String × Tool)) :
    (∀ t t₀, alGet tools t.name = some t₀ →
      register_tool tools t =
        (tools,
         some (.valueError ("Tool with name '" ++ t.name ++ "' is already registered")))) ∧
    (∀ t, alGet tools t.name = Option.none →
      register_tool tools t = (tools ++ [(t.name, t)], Option.none)) ∧
    (∀ ts n t₀, alGet tools n = some t₀ →
      alGet (register_tools tools ts).1 n = some t₀) ∧
    (∀ ts₁ ts₂, register_tools tools (ts₁ ++ ts₂) =
      (match register_tools tools ts₁ with
       | (tools1, Option.none) => register_tools tools1 ts₂
       | (tools1, some e) => (tools1, some e))) := by
  refine ⟨?_, ?_, ?_, ?_⟩
  · intro t t₀ h
    simp [register_tool, h]
  · intro t h
    simp [register_tool, h]
  · intro ts n t₀ h
    exact register_tools_preserves ts tools n t₀ h
  · intro ts₁ ts₂
    exact register_tools_append ts₁ ts₂ tools

def c6A : Tool := { name := "a", description := "first a" }

def c6A2 : Tool := { name := "a", description := "second a" }

def c6B : Tool := { name := "b", description := "b" }

/-- Witness for C6: re-registering name `a` fails and the registry still
maps `a` to the first tool after a later `register_tools` call that fails
partway. -/
theorem C6_witness :
    register_tool [("a", c6A)] c6A2 =
      ([("a", c6A)],
       some (.valueError ("Tool with name '" ++ c6A2.name ++ "' is already registered"))) ∧
    alGet (register_tools [("a", c6A)] [c6B, c6A2]).1 "a" = some c6A := by
  have h := C6_registry_first_wins [("a", c6A)]
  exact ⟨h.1 c6A2 c6A rfl, h.2.2.1 [c6B, c6A2] "a" c6A rfl⟩

/-! ### Claim C7 -/

/-- An element the resolution loop can handle: a `Tool`, or the name of a
registered tool. -/
def Resolvable (tools : List (String × Tool)) : ToolOrStr → Prop
  | .tool _ => True
  | .str s => ∃ t, alGet tools s = some t
  | .other _ => False

/-- The relation between an input element and the tool it resolves to: a
`Tool` element is returned unchanged; a string is replaced by the
registered tool of that name. -/
def ResolvesTo (tools : List (String × Tool)) (x : ToolOrStr) (t : Tool) : Prop :=
  x = .tool t ∨ ∃ s, x = .str s ∧ alGet tools s = some t

lemma resolveItems_ok_forall2 {tools : List (String × Tool)} :
    ∀ {items : List ToolOrStr} {res : List Tool},
      resolveItems tools items = .ok res → List.Forall₂ (ResolvesTo tools) items res := by
  intro items
  induction items with
  | nil =>
    intro res h
    simp [resolveItems] at h
    simp [← h]
  | cons x rest ih =>
    intro res h
    cases x with
    | tool t =>
      simp only [resolveItems] at h
      cases hr : resolveItems tools rest with
      | error e => rw [hr] at h; exact Except.noConfusion h
      | ok r =>
        rw [hr] at h
        simp only [Except.map] at h
        cases h
        exact List.Forall₂.cons (Or.inl rfl) (ih hr)
    | str s =>
      simp only [resolveItems] at h
      cases hg : alGet tools s with
      | none => rw [get_tool, hg] at h; exact Except.noConfusion h
      | some t =>
        rw [get_tool, hg] at h
        cases hr : resolveItems tools rest with
        | error e => rw [hr] at h; exact Except.noConfusion h
        | ok r =>
          rw [hr] at h
          simp only [Except.map] at h
          cases h
          exact List.Forall₂.cons (Or.inr ⟨s, rfl, hg⟩) (ih hr)
    | other ty =>
      simp only [resolveItems] at h
      exact Except.noConfusion h

lemma resolveItems_ok_of_resolvable {tools : List (String × Tool)} :
    ∀ {items : List ToolOrStr}, (∀ x ∈ items, Resolvable tools x) →
      ∃ res, resolveItems tools items = .ok res := by
  intro items
  induction items with
  | nil => exact fun _ => ⟨[], rfl⟩
  | cons x rest ih =>
    intro hall
    obtain ⟨r, hr⟩ := ih fun y hy => hall y (List.mem_cons_of_mem _ hy)
    cases x with
    | tool t => exact ⟨t :: r, by simp [resolveItems, hr, Except.map]⟩
    | str s =>
      obtain ⟨t, ht⟩ := hall (.str s) (List.mem_cons_self _ _)
      exact ⟨t :: r, by simp [resolveItems, get_tool, ht, hr, Except.map]⟩
    | other ty => exact absurd (hall (.other ty) (List.mem_cons_self _ _)) (by simp [Resolvable])

lemma resolveItems_err {tools : List (String × Tool)} :
    ∀ {pre : List ToolOrStr} {x : ToolOrStr} {post : List ToolOrStr} {e : Exc},
      (∀ y ∈ pre, Resolvable tools y) →
      resolveItems tools (x :: post) = .error e →
      resolveItems tools (pre ++ x :: post) = .error e := by
  intro pre
  induction pre with
  | nil => intro x post e _ h; exact h
  | cons y rest ih =>
    intro x post e hall h
    have hres := ih (fun z hz => hall z (List.mem_cons_of_mem _ hz)) h
    cases y with
    | tool t => simp [resolveItems, hres, Except.map]
    | str s =>
      obtain ⟨t, ht⟩ := hall (.str s) (List.mem_cons_self _ _)
      simp [resolveItems, get_tool, ht, hres, Except.map]
    | other ty => exact absurd (hall (.other ty) (List.mem_cons_self _ _)) (by simp [Resolvable])

/-- Claim C7: `_resolve_tools` with `None` returns exactly the registered
tools in registry order; with an explicit list it returns, in input
order, each `Tool` element unchanged and each string replaced by the
registered tool of that name (and conversely any successful result has
that shape); the first unregistered name fails with the not-found
`KeyError`, and the first element that is neither a `Tool` nor a string
fails with the `TypeError`. -/
theorem C7_resolve_tools (tools : List (String × Tool)) :
    (resolve_tools tools Option.none = .ok (tools.map Prod.snd)) ∧
    (∀ items : List ToolOrStr, (∀ x ∈ items, Resolvable tools x) →
      ∃ res, resolve_tools tools (some items) = .ok res ∧
        List.Forall₂ (ResolvesTo tools) items res) ∧
    (∀ items res, resolve_tools tools (some items) = .ok res →
      List.Forall₂ (ResolvesTo tools) items res) ∧
    (∀ pre s post, (∀ x ∈ pre, Resolvable tools x) → alGet tools s = Option.none →
      resolve_tools tools (some (pre ++ .str s :: post)) =
        .error (.keyError ("No tool with name '" ++ s ++ "' is registered"))) ∧
    (∀ pre ty post, (∀ x ∈ pre, Resolvable tools x) →
      resolve_tools tools (some (pre ++ .other ty :: post)) =
        .error (.typeError ("Expected Tool or str, got " ++ ty))) := by
  refine ⟨rfl, ?_, ?_, ?_, ?_⟩
  · intro items hall
    obtain ⟨res, hres⟩ := resolveItems_ok_of_resolvable hall
    exact ⟨res, hres, resolveItems_ok_forall2 hres⟩
  · intro items res h
    exact resolveItems_ok_forall2 h
  · intro pre s post hall hs
    exact resolveItems_err hall (by simp [resolveItems, get_tool, hs])
  · intro pre ty post hall
    exact resolveItems_err hall (by simp [resolveItems])

def c7T : Tool := { name := "reg", description := "registered" }

def c7U : Tool := { name := "unreg", description := "supplied directly" }

/-- Witness for C7: resolving `None` and a mixed name/Tool list against a
one-entry registry. -/
theorem C7_witness :
    resolve_tools [("reg", c7T)] Option.none = .ok [c7T] ∧
    (∃ res, resolve_tools [("reg", c7T)] (some [.str "reg", .tool c7U]) = .ok res ∧
      List.Forall₂ (ResolvesTo [("reg", c7T)]) [.str "reg", .tool c7U] res) ∧
    resolve_tools [("reg", c7T)] (some [.other "int"]) =
      .error (.typeError ("Expected Tool or str, got " ++ "int")) := by
  have h := C7_resolve_tools [("reg", c7T)]
  refine ⟨h.1, h.2.1 [.str "reg", .tool c7U] ?_, h.2.2.2.2 [] "int" [] (by simp)⟩
  intro x hx
  rcases List.mem_cons.mp hx with h1 | h1
  · exact h1 ▸ ⟨c7T, rfl⟩
  · simp only [List.mem_singleton] at h1
    exact h1 ▸ trivial

/-! ### Adapter-loop lemmas -/

lemma execCount_append (l1 l2 : List AdapterEv) :
    execCount (l1 ++ l2) = execCount l1 + execCount l2 := by
  simp [execCount, List.filter_append]

lemma prepsOf_append (l1 l2 : List AdapterEv) :
    prepsOf (l1 ++ l2) = prepsOf l1 ++ prepsOf l2 := by
  simp [prepsOf]

lemma toolNamesOf_append (l1 l2 : List AdapterEv) :
    toolNamesOf (l1 ++ l2) = toolNamesOf l1 ++ toolNamesOf l2 := by
  simp [toolNamesOf]

lemma execCount_nil : execCount [] = 0 := rfl

lemma prepsOf_nil : prepsOf [] = [] := rfl

lemma toolNamesOf_nil : toolNamesOf [] = [] := rfl

lemma execCount_cons (ev : AdapterEv) (l : List AdapterEv) :
    execCount (ev :: l) =
      (match ev with | AdapterEv.exec => 1 | _ => 0) + execCount l := by
  cases ev <;> simp [execCount, List.filter_cons, Nat.add_comm]

lemma prepsOf_cons (ev : AdapterEv) (l : List AdapterEv) :
    prepsOf (ev :: l) =
      (match ev with | AdapterEv.prep a b => [(a, b)] | _ => []) ++ prepsOf l := by
  cases ev <;> simp [prepsOf, List.filterMap_cons]

lemma toolNamesOf_cons (ev : AdapterEv) (l : List AdapterEv) :
    toolNamesOf (ev :: l) =
      (match ev with | AdapterEv.toolCall n => [n] | _ => []) ++ toolNamesOf l := by
  cases ev <;> simp [toolNamesOf, List.filterMap_cons]

lemma execCount_toolCallMap (calls : List ToolCall) :
    ∀ n : Nat, execCount ((calls.map fun tc => AdapterEv.toolCall tc.tool_name).take n) = 0 := by
  induction calls with
  | nil => intro n; simp [execCount]
  | cons tc rest ih =>
    intro n
    cases n with
    | zero => simp [execCount]
    | succ k =>
      simp only [List.map_cons, List.take_succ_cons]
      simpa [execCount, List.filter_cons] using ih k

lemma prepsOf_toolCallMap (calls : List ToolCall) :
    ∀ n : Nat, prepsOf ((calls.map fun tc => AdapterEv.toolCall tc.tool_name).take n) = [] := by
  induction calls with
  | nil => intro n; simp [prepsOf]
  | cons tc rest ih =>
    intro n
    cases n with
    | zero => simp [prepsOf]
    | succ k =>
      simp only [List.map_cons, List.take_succ_cons]
      simpa [prepsOf, List.filterMap_cons] using ih k

lemma toolNamesOf_toolCallMap (calls : List ToolCall) :
    ∀ n : Nat, toolNamesOf ((calls.map fun tc => AdapterEv.toolCall tc.tool_name).take n) =
      (calls.map ToolCall.tool_name).take n := by
  induction calls with
  | nil => intro n; simp [toolNamesOf]
  | cons tc rest ih =>
    intro n
    cases n with
    | zero => simp [toolNamesOf]
    | succ k =>
      simp only [List.map_cons, List.take_succ_cons]
      simpa [toolNamesOf, List.filterMap_cons] using ih k

lemma alSet_ne_nil' {α : Type} {d : List (String × α)} {k : String} {v : α} :
    (alSet d k v).isEmpty = false := by
  have := alSet_ne_nil d k v
  cases h : alSet d k v with
  | nil => exact absurd h this
  | cons a l => rfl

lemma applyCalls_ne_nil {proc : ToolCall → PyVal} :
    ∀ {calls : List ToolCall} {acc : List (String × PyVal)}, acc ≠ [] →
      applyCalls proc acc calls ≠ [] := by
  intro calls
  induction calls with
  | nil => intro acc h; exact h
  | cons tc rest ih =>
    intro acc _
    exact ih (alSet_ne_nil acc (callKey tc) (proc tc))

lemma applyCalls_nil_start_ne_nil {proc : ToolCall → PyVal} {calls : List ToolCall}
    (h : calls ≠ []) : applyCalls proc [] calls ≠ [] := by
  cases calls with
  | nil => exact absurd rfl h
  | cons tc rest =>
    show applyCalls proc (alSet [] (callKey tc) (proc tc)) rest ≠ []
    exact applyCalls_ne_nil (alSet_ne_nil _ _ _)

lemma take_toNat_ne_nil {m : Int} {l : List ToolCall} (hm : 1 ≤ m) (h : l ≠ []) :
    l.take m.toNat ≠ [] := by
  cases l with
  | nil => exact absurd rfl h
  | cons a l' =>
    cases hn : m.toNat with
    | zero => omega
    | succ k => simp [hn]

lemma collectedOf_ne_nil {tools : Option (List Tool)} {m : Int} {llm : LLMResponse}
    (hm : 1 ≤ m) (h : llm.tool_calls ≠ []) : collectedOf tools m llm ≠ [] :=
  applyCalls_nil_start_ne_nil (take_toNat_ne_nil hm h)

/-! ### Claim C2 -/

/-- Claim C2: when the first parsed response has no tool calls,
`execute_with_tools` performs exactly one
prepare/execute/parse round, invokes no tool, and returns that first
parsed response unchanged. -/
theorem C2_one_round_termination {T R : Type} (A : BaseProviderAdapter T R)
    (prompt : String) (tools : Option (List Tool)) (m : Int)
    (kwargs : List (String × PyVal)) (hm : 1 ≤ m) (llm1 : LLMResponse)
    (h1 : round1 A prompt tools kwargs = .ok llm1) (hnc : llm1.tool_calls = []) :
    execute_with_tools A prompt tools m kwargs =
      (.ok llm1, [.prep tools Option.none, .exec, .parsed]) := by
  have hguard : ¬ m < 1 := not_lt.mpr hm
  unfold execute_with_tools
  rw [if_neg hguard]
  cases hp : A.prepare_request prompt tools Option.none kwargs with
  | error e =>
    have hh : round1 A prompt tools kwargs = .error e := by simp [round1, hp]
    rw [h1] at hh
    exact Except.noConfusion hh
  | ok req =>
    cases hx : A.execute_request req with
    | error e =>
      have hh : round1 A prompt tools kwargs = .error e := by simp [round1, hp, hx]
      rw [h1] at hh
      exact Except.noConfusion hh
    | ok resp =>
      have hh : round1 A prompt tools kwargs = A.parse_response resp := by
        simp [round1, hp, hx]
      rw [h1] at hh
      have hr : A.parse_response resp = .ok llm1 := hh.symm
      simp [adapterTryBody, hp, hx, hr, hnc]

/-- An adapter whose first response has no tool calls. -/
def cNoToolsAdapter : BaseProviderAdapter Unit Unit :=
  { prepare_request := fun _ _ _ _ => .ok ()
    execute_request := fun _ => .ok ()
    parse_response := fun _ => .ok { content := some "plain" } }

/-- Witness for C2: one round, response returned unchanged. -/
theorem C2_witness :
    execute_with_tools cNoToolsAdapter "p" Option.none 10 [] =
      (.ok { content := some "plain" }, [.prep Option.none Option.none, .exec, .parsed]) :=
  C2_one_round_termination cNoToolsAdapter "p" Option.none 10 [] (by decide)
    { content := some "plain" } rfl rfl

/-! ### Claim C4 -/

/-- Claim C4: `max_tool_calls < 1` fails immediately with the
configuration `ValueError`, unwrapped and before any request (empty
log); otherwise the run raises exactly when the try body raises, and
every raised exception is the single `RuntimeError("Tool execution
failed: ...")` wrapping the original exception as its cause. -/
theorem C4_error_policy {T R : Type} (A : BaseProviderAdapter T R) (prompt : String)
    (tools : Option (List Tool)) (m : Int) (kwargs : List (String × PyVal)) :
    (m < 1 → execute_with_tools A prompt tools m kwargs =
      (.error (.valueError "max_tool_calls must be at least 1"), [])) ∧
    (∀ e0, ¬ m < 1 → (adapterTryBody A prompt tools m kwargs).1 = .error e0 →
      (execute_with_tools A prompt tools m kwargs).1 =
        .error (.runtimeError ("Tool execution failed: " ++ e0.pyStr) (some e0))) ∧
    (∀ e, ¬ m < 1 → (execute_with_tools A prompt tools m kwargs).1 = .error e →
      ∃ e0, (adapterTryBody A prompt tools m kwargs).1 = .error e0 ∧
        e = .runtimeError ("Tool execution failed: " ++ e0.pyStr) (some e0)) := by
  refine ⟨?_, ?_, ?_⟩
  · intro h
    simp [execute_with_tools, h]
  · intro e0 hguard h
    simp [execute_with_tools, hguard, h]
  · intro e hguard h
    simp only [execute_with_tools, if_neg hguard] at h
    cases hb : (adapterTryBody A prompt tools m kwargs).1 with
    | ok r => rw [hb] at h; exact Except.noConfusion h
    | error e0 =>
      rw [hb] at h
      exact ⟨e0, rfl, (Except.error.injEq _ _ ▸ h).symm⟩

/-- An adapter whose `execute_request` raises. -/
def cFailAdapter : BaseProviderAdapter Unit Unit :=
  { prepare_request := fun _ _ _ _ => .ok ()
    execute_request := fun _ => .error (.userError "boom")
    parse_response := fun _ => .ok {} }

/-- Witness for C4: the guard rejection at `max_tool_calls = 0` and the
wrapped re-raise of a request failure. -/
theorem C4_witness :
    execute_with_tools cFailAdapter "p" Option.none 0 [] =
      (.error (.valueError "max_tool_calls must be at least 1"), []) ∧
    (execute_with_tools cFailAdapter "p" Option.none 1 []).1 =
      .error (.runtimeError ("Tool execution failed: " ++ (Exc.userError "boom").pyStr)
        (some (.userError "boom"))) := by
  have h := C4_error_policy cFailAdapter "p" Option.none 0 []
  have h1 := C4_error_policy cFailAdapter "p" Option.none 1 []
  exact ⟨h.1 (by decide), h1.2.1 (.userError "boom") (by decide) rfl⟩

/-! ### Claim C1 -/

lemma ne_nil_isEmpty_false {α : Type} {l : List α} (h : l ≠ []) : l.isEmpty = false := by
  cases l with
  | nil => exact absurd rfl h
  | cons a l' => rfl

/-- Claim C1: for every adapter behaviour and every tools list,
`execute_with_tools` performs at most two `execute_request` calls; the
`prepare_request` calls are exactly the initial one with the tools
offered, followed — only when the first parsed response carries tool
calls — by one follow-up with no tools and the collected results; only
the first `max_tool_calls` tool calls of the first response are
processed; and when the follow-up round parses, its response is returned
even if it itself contains further tool calls. -/
theorem C1_at_most_two_rounds {T R : Type} (A : BaseProviderAdapter T R)
    (prompt : String) (tools : Option (List Tool)) (m : Int)
    (kwargs : List (String × PyVal)) (hm : 1 ≤ m) :
    execCount (execute_with_tools A prompt tools m kwargs).2 ≤ 2 ∧
    prepsOf (execute_with_tools A prompt tools m kwargs).2 =
      (tools, Option.none) ::
        (match round1 A prompt tools kwargs with
         | .ok llm1 =>
           if llm1.tool_calls.isEmpty then []
           else [(Option.none, some (collectedOf tools m llm1))]
         | .error _ => []) ∧
    toolNamesOf (execute_with_tools A prompt tools m kwargs).2 =
      (match round1 A prompt tools kwargs with
       | .ok llm1 => (llm1.tool_calls.take m.toNat).map ToolCall.tool_name
       | .error _ => []) ∧
    (∀ llm1 llm2, round1 A prompt tools kwargs = .ok llm1 → llm1.tool_calls ≠ [] →
      round2 A prompt (collectedOf tools m llm1) kwargs = .ok llm2 →
      (execute_with_tools A prompt tools m kwargs).1 = .ok llm2) := by
  have hguard : ¬ m < 1 := not_lt.mpr hm
  have hrun : execute_with_tools A prompt tools m kwargs =
      ((match (adapterTryBody A prompt tools m kwargs).1 with
        | .ok r => .ok r
        | .error e => .error (.runtimeError ("Tool execution failed: " ++ e.pyStr) (some e))),
       (adapterTryBody A prompt tools m kwargs).2) := by
    simp [execute_with_tools, hguard]
  rw [hrun]
  cases hp : A.prepare_request prompt tools Option.none kwargs with
  | error e =>
    simp [adapterTryBody, round1, hp, execCount, prepsOf, toolNamesOf]
  | ok req =>
    cases hx : A.execute_request req with
    | error e =>
      simp [adapterTryBody, round1, hp, hx, execCount, prepsOf, toolNamesOf]
    | ok resp =>
      cases hrp : A.parse_response resp with
      | error e =>
        simp [adapterTryBody, round1, hp, hx, hrp, execCount, prepsOf, toolNamesOf]
      | ok llm =>
        have hr1 : round1 A prompt tools kwargs = .ok llm := by
          simp [round1, hp, hx, hrp]
        by_cases hempty : llm.tool_calls.isEmpty
        · have hemp : llm.tool_calls = [] := by simpa [List.isEmpty_iff] using hempty
          refine ⟨?_, ?_, ?_, ?_⟩
          · simp [adapterTryBody, hp, hx, hrp, hempty, execCount]
          · simp [adapterTryBody, round1, hp, hx, hrp, hempty, prepsOf]
          · simp [adapterTryBody, round1, hp, hx, hrp, hempty, hemp, toolNamesOf]
          · intro llm1 llm2 h1 hne h2
            rw [hr1] at h1
            have hl : llm = llm1 := Except.ok.inj h1
            exact absurd (hl ▸ hemp) hne
        · have hcalls : llm.tool_calls ≠ [] := by
            simpa [List.isEmpty_iff] using hempty
          have hres : applyCalls (fun tc => process_tool_call tc (toolsDictOf tools)) []
              (llm.tool_calls.take m.toNat) ≠ [] :=
            applyCalls_nil_start_ne_nil (take_toNat_ne_nil hm hcalls)
          have hres' := ne_nil_isEmpty_false hres
          cases hp2 : A.prepare_request prompt Option.none
              (some (applyCalls (fun tc => process_tool_call tc (toolsDictOf tools)) []
                (llm.tool_calls.take m.toNat))) kwargs with
          | error e2 =>
            refine ⟨?_, ?_, ?_, ?_⟩
            · simp [adapterTryBody, hp, hx, hrp, hempty, hres', hp2, execCount_append,
                execCount_cons, execCount_nil, execCount_toolCallMap]
            · simp [adapterTryBody, round1, hp, hx, hrp, hempty, hres', hp2, prepsOf_append,
                prepsOf_cons, prepsOf_nil, prepsOf_toolCallMap, collectedOf]
            · simp [adapterTryBody, round1, hp, hx, hrp, hempty, hres', hp2,
                toolNamesOf_append, toolNamesOf_cons, toolNamesOf_nil, toolNamesOf_toolCallMap]
            · intro llm1 llm2 h1 hne h2
              rw [hr1] at h1
              have hl : llm = llm1 := Except.ok.inj h1
              subst hl
              have hr2 : round2 A prompt (collectedOf tools m llm) kwargs = .error e2 := by
                simp [round2, collectedOf, hp2]
              rw [h2] at hr2
              exact Except.noConfusion hr2
          | ok req2 =>
            cases hx2 : A.execute_request req2 with
            | error e2 =>
              refine ⟨?_, ?_, ?_, ?_⟩
              · simp [adapterTryBody, hp, hx, hrp, hempty, hres', hp2, hx2, execCount_append,
                  execCount_cons, execCount_nil, execCount_toolCallMap]
              · simp [adapterTryBody, round1, hp, hx, hrp, hempty, hres', hp2, hx2,
                  prepsOf_append, prepsOf_cons, prepsOf_nil, prepsOf_toolCallMap, collectedOf]
              · simp [adapterTryBody, round1, hp, hx, hrp, hempty, hres', hp2, hx2,
                  toolNamesOf_append, toolNamesOf_cons, toolNamesOf_nil, toolNamesOf_toolCallMap]
              · intro llm1 llm2 h1 hne h2
                rw [hr1] at h1
                have hl : llm = llm1 := Except.ok.inj h1
                subst hl
                have hr2 : round2 A prompt (collectedOf tools m llm) kwargs = .error e2 := by
                  simp [round2, collectedOf, hp2, hx2]
                rw [h2] at hr2
                exact Except.noConfusion hr2
            | ok resp2 =>
              cases hrp2 : A.parse_response resp2 with
              | error e2 =>
                refine ⟨?_, ?_, ?_, ?_⟩
                · simp [adapterTryBody, hp, hx, hrp, hempty, hres', hp2, hx2, hrp2,
                    execCount_append, execCount_cons, execCount_nil, execCount_toolCallMap]
                · simp [adapterTryBody, round1, hp, hx, hrp, hempty, hres', hp2, hx2, hrp2,
                    prepsOf_append, prepsOf_cons, prepsOf_nil, prepsOf_toolCallMap, collectedOf]
                · simp [adapterTryBody, round1, hp, hx, hrp, hempty, hres', hp2, hx2, hrp2,
                    toolNamesOf_append, toolNamesOf_cons, toolNamesOf_nil, toolNamesOf_toolCallMap]
                · intro llm1 llm2 h1 hne h2
                  rw [hr1] at h1
                  have hl : llm = llm1 := Except.ok.inj h1
                  subst hl
                  have hr2 : round2 A prompt (collectedOf tools m llm) kwargs = .error e2 := by
                    simp [round2, collectedOf, hp2, hx2, hrp2]
                  rw [h2] at hr2
                  exact Except.noConfusion hr2
              | ok llm2' =>
                refine ⟨?_, ?_, ?_, ?_⟩
                · simp [adapterTryBody, hp, hx, hrp, hempty, hres', hp2, hx2, hrp2,
                    execCount_append, execCount_cons, execCount_nil, execCount_toolCallMap]
                · simp [adapterTryBody, round1, hp, hx, hrp, hempty, hres', hp2, hx2, hrp2,
                    prepsOf_append, prepsOf_cons, prepsOf_nil, prepsOf_toolCallMap, collectedOf]
                · simp [adapterTryBody, round1, hp, hx, hrp, hempty, hres', hp2, hx2, hrp2,
                    toolNamesOf_append, toolNamesOf_cons, toolNamesOf_nil, toolNamesOf_toolCallMap]
                · intro llm1 llm2 h1 hne h2
                  rw [hr1] at h1
                  have hl : llm = llm1 := Except.ok.inj h1
                  subst hl
                  have hr2 : round2 A prompt (collectedOf tools m llm) kwargs = .ok llm2' := by
                    simp [round2, collectedOf, hp2, hx2, hrp2]
                  rw [h2] at hr2
                  have hl2 : llm2 = llm2' := Except.ok.inj hr2
                  subst hl2
                  simp [adapterTryBody, hp, hx, hrp, hempty, hres', hp2, hx2, hrp2]

/-- A first response with three tool calls. -/
def c1Resp1 : LLMResponse :=
  { tool_calls := [⟨"add", [], some "c1"⟩, ⟨"add", [], some "c2"⟩, ⟨"add", [], some "c3"⟩] }

/-- A follow-up response that still contains a tool call. -/
def c1Resp2 : LLMResponse :=
  { content := some "done", tool_calls := [⟨"add", [], some "again"⟩] }

/-- An adapter whose request records whether tool results were supplied:
first round returns `c1Resp1` (three calls), the follow-up `c1Resp2`. -/
def c1Adapter : BaseProviderAdapter Bool Bool :=
  { prepare_request := fun _ _ results _ => .ok results.isSome
    execute_request := fun b => .ok b
    parse_response := fun b => .ok (if b then c1Resp2 else c1Resp1) }

/-- Witness for C1: a concrete two-round run with `max_tool_calls = 2`
and a first response carrying three tool calls; the follow-up response is
returned although it still contains a tool call. -/
theorem C1_witness :
    execCount (execute_with_tools c1Adapter "p" (some [c3AddTool]) 2 []).2 ≤ 2 ∧
    (execute_with_tools c1Adapter "p" (some [c3AddTool]) 2 []).1 = .ok c1Resp2 := by
  have h := C1_at_most_two_rounds c1Adapter "p" (some [c3AddTool]) 2 [] (by decide)
  exact ⟨h.1, h.2.2.2 c1Resp1 c1Resp2 rfl (by simp [c1Resp1]) rfl⟩

/-! ### Claim C8 -/

/-- Claim C8: in the legacy `_execute_with_provider` loop, with
`max_tool_calls = 1` and a provider every one of whose responses carries
tool calls, exactly one follow-up `generate` call is made after the
initial one, the loop stops, and the follow-up's response is returned
as-is even though it still contains tool calls. -/
theorem C8_round_cap_truncation (gen : ProviderFn) (tb : List (String × Tool))
    (prompt : String) (resolved : List Tool) (kwargs : List (String × PyVal))
    (r₁ r₂ : LLMResponse)
    (hall : ∀ hist r, gen hist = .ok r → r.tool_calls ≠ [])
    (h1 : gen [⟨prompt, resolved, Option.none, kwargs⟩] = .ok r₁)
    (h2 : gen [⟨prompt, resolved, Option.none, kwargs⟩,
               ⟨prompt, [], some (accRounds tb [r₁.tool_calls]), kwargs⟩] = .ok r₂) :
    execute_with_provider gen tb prompt resolved 1 kwargs =
      (.ok r₂,
       [⟨⟨prompt, resolved, Option.none, kwargs⟩, some r₁⟩,
        ⟨⟨prompt, [], some (accRounds tb [r₁.tool_calls]), kwargs⟩, some r₂⟩]) := by
  have hr1 := ne_nil_isEmpty_false (hall _ _ h1)
  have hr2 := ne_nil_isEmpty_false (hall _ _ h2)
  have h2' : gen [⟨prompt, resolved, Option.none, kwargs⟩,
      ⟨prompt, [], some (applyCalls (bridgeToolResult tb) [] r₁.tool_calls), kwargs⟩] =
      .ok r₂ := h2
  simp only [applyCalls] at h2'
  simp [execute_with_provider, legacyLoop, h1, h2', hr1, hr2, accRounds, applyCalls]

/-- One provider response per round, always carrying a tool call. -/
def c8Resp (n : Nat) : LLMResponse :=
  { content := some (toString n), tool_calls := [⟨"miss", [], Option.none⟩] }

/-- A provider whose every response carries a tool call. -/
def c8Gen : ProviderFn := fun hist => .ok (c8Resp hist.length)

/-- Witness for C8: the concrete max_tool_calls=1 run performs one
follow-up and returns its response, tool calls and all. -/
theorem C8_witness :
    execute_with_provider c8Gen [] "p" [c7T] 1 [] =
      (.ok (c8Resp 2),
       [⟨⟨"p", [c7T], Option.none, []⟩, some (c8Resp 1)⟩,
        ⟨⟨"p", [], some (accRounds [] [(c8Resp 1).tool_calls]), []⟩, some (c8Resp 2)⟩]) :=
  C8_round_cap_truncation c8Gen [] "p" [c7T] [] (c8Resp 1) (c8Resp 2)
    (by intro hist r h; rw [← Except.ok.inj h]; simp [c8Resp]) rfl rfl

/-! ### Claim C9 -/

/-- A tool used only as a resolved tool offered to the provider. -/
def c9Tool : Tool := { name := "t9", description := "d" }

/-- A provider that requests tool `t9` once and then stops. -/
def c9Gen : ProviderFn := fun hist =>
  if hist.length ≤ 1 then .ok { tool_calls := [⟨"t9", [], Option.none⟩] }
  else .ok { content := some "done" }

/-- Claim C9 counterexample: in the llm_toolbridge legacy loop with
resolved tools `[c9Tool]`, the follow-up `generate` call passes an empty
tools list, not the resolved tools — the claim that every follow-up
re-offers the resolved tools fails here. -/
theorem C9_counterexample :
    ((execute_with_provider c9Gen [] "p" [c9Tool] 10 []).2.map fun r => r.call.tools) =
      [[c9Tool], []] ∧ [c9Tool] ≠ ([] : List Tool) :=
  ⟨rfl, by simp⟩

/-- The rounds after the initial one, as produced by the llm_toolbridge
legacy loop: given `rs`, the responses already received, each successive
follow-up call carries the same prompt and kwargs, an empty tools list,
and as tool results the fold of all received responses' tool calls over
the empty dict (accumulated across rounds, never reset; `alSet` makes
later duplicate keys overwrite).  A round answered by the provider
extends the chain; a raised provider exception ends it. -/
inductive FollowChain (tb : List (String × Tool)) (prompt : String)
    (kwargs : List (String × PyVal)) : List LLMResponse → List GenRound → Prop where
  | nil (rs : List LLMResponse) : FollowChain tb prompt kwargs rs []
  | cons (rs : List LLMResponse) (r : GenRound) (rest : List GenRound)
      (hcall : r.call =
        ⟨prompt, [], some (accRounds tb (rs.map LLMResponse.tool_calls)), kwargs⟩)
      (hok : ∀ resp', r.resp = some resp' →
        FollowChain tb prompt kwargs (rs ++ [resp']) rest)
      (herr : r.resp = Option.none → rest = []) :
      FollowChain tb prompt kwargs rs (r :: rest)

lemma accRounds_snoc (tb : List (String × Tool)) (l : List (List ToolCall))
    (c : List ToolCall) :
    accRounds tb (l ++ [c]) = applyCalls (bridgeToolResult tb) (accRounds tb l) c := by
  simp [accRounds, List.foldl_append]

lemma legacyLoop_chain (gen : ProviderFn) (tb : List (String × Tool)) (prompt : String)
    (kwargs : List (String × PyVal)) :
    ∀ (fuel : Nat) (resp : LLMResponse) (results : List (String × PyVal))
      (hist : List GenRound) (rs : List LLMResponse),
      results = accRounds tb (rs.map LLMResponse.tool_calls) →
      ∃ tail, (legacyLoop gen tb prompt kwargs fuel resp results hist).2 = hist ++ tail ∧
        FollowChain tb prompt kwargs (rs ++ [resp]) tail := by
  intro fuel
  induction fuel with
  | zero =>
    intro resp results hist rs _
    by_cases he : resp.tool_calls.isEmpty
    · exact ⟨[], by simp [legacyLoop, he], FollowChain.nil _⟩
    · exact ⟨[], by simp [legacyLoop, he], FollowChain.nil _⟩
  | succ fuel' ih =>
    intro resp results hist rs hres
    by_cases he : resp.tool_calls.isEmpty
    · exact ⟨[], by simp [legacyLoop, he], FollowChain.nil _⟩
    · have hres' : applyCalls (bridgeToolResult tb) results resp.tool_calls =
          accRounds tb (((rs ++ [resp]).map LLMResponse.tool_calls)) := by
        rw [hres, List.map_append, List.map_singleton, accRounds_snoc]
      cases hg : gen ((hist.map GenRound.call) ++
          [⟨prompt, [], some (applyCalls (bridgeToolResult tb) results resp.tool_calls),
            kwargs⟩]) with
      | error e =>
        refine ⟨[⟨⟨prompt, [],
            some (applyCalls (bridgeToolResult tb) results resp.tool_calls), kwargs⟩,
            Option.none⟩], by simp [legacyLoop, he, hg], ?_⟩
        refine FollowChain.cons _ _ _ ?_ ?_ ?_
        · simp [hres']
        · intro resp' h'
          exact absurd h' (by simp)
        · intro _
          rfl
      | ok resp'' =>
        obtain ⟨tail', htail', hchain'⟩ :=
          ih resp'' (applyCalls (bridgeToolResult tb) results resp.tool_calls)
            (hist ++ [⟨⟨prompt, [],
              some (applyCalls (bridgeToolResult tb) results resp.tool_calls), kwargs⟩,
              some resp''⟩]) (rs ++ [resp]) hres'
        refine ⟨⟨⟨prompt, [],
            some (applyCalls (bridgeToolResult tb) results resp.tool_calls), kwargs⟩,
            some resp''⟩ :: tail', ?_, ?_⟩
        · have hstep : legacyLoop gen tb prompt kwargs (fuel' + 1) resp results hist =
              legacyLoop gen tb prompt kwargs fuel' resp''
                (applyCalls (bridgeToolResult tb) results resp.tool_calls)
                (hist ++ [⟨⟨prompt, [],
                  some (applyCalls (bridgeToolResult tb) results resp.tool_calls), kwargs⟩,
                  some resp''⟩]) := by
            simp [legacyLoop, he, hg]
          rw [hstep, htail']
          simp
        · refine FollowChain.cons _ _ _ (by simp [hres']) ?_ ?_
          · intro resp3 h3
            rw [← Option.some.inj h3]
            exact hchain'
          · intro h3
            exact absurd h3 (by simp)

lemma coreLoop_tools (gen : ProviderFn) (tb : List (String × Tool)) (prompt : String)
    (resolved : List Tool) :
    ∀ (fuel : Nat) (resp : LLMResponse) (results : List (String × PyVal))
      (hist : List GenRound),
      (∀ r ∈ hist, r.call.tools = resolved ∧ r.call.prompt = prompt) →
      ∀ r ∈ (coreLoop gen tb prompt resolved fuel resp results hist).2,
        r.call.tools = resolved ∧ r.call.prompt = prompt := by
  intro fuel
  induction fuel with
  | zero =>
    intro resp results hist hall r hr
    by_cases he : resp.tool_calls.isEmpty <;>
      · simp [coreLoop, he] at hr
        exact hall r hr
  | succ fuel' ih =>
    intro resp results hist hall r hr
    by_cases he : resp.tool_calls.isEmpty
    · simp [coreLoop, he] at hr
      exact hall r hr
    · cases hg : gen ((hist.map GenRound.call) ++
          [⟨prompt, resolved, some (applyCalls (bridgeToolResult tb) results resp.tool_calls),
            []⟩]) with
      | error e =>
        simp only [coreLoop, he, hg] at hr
        simp only [Bool.false_eq_true, if_false] at hr
        rcases List.mem_append.mp hr with h1 | h1
        · exact hall r h1
        · simp only [List.mem_singleton] at h1
          subst h1
          exact ⟨rfl, rfl⟩
      | ok resp'' =>
        have hstep : coreLoop gen tb prompt resolved (fuel' + 1) resp results hist =
            coreLoop gen tb prompt resolved fuel' resp''
              (applyCalls (bridgeToolResult tb) results resp.tool_calls)
              (hist ++ [⟨⟨prompt, resolved,
                some (applyCalls (bridgeToolResult tb) results resp.tool_calls), []⟩,
                some resp''⟩]) := by
          simp [coreLoop, he, hg]
        rw [hstep] at hr
        refine ih resp'' _ _ ?_ r hr
        intro r' hr'
        rcases List.mem_append.mp hr' with h1 | h1
        · exact hall r' h1
        · simp only [List.mem_singleton] at h1
          subst h1
          exact ⟨rfl, rfl⟩

/-- Claim C9 (amended): in the llm_toolbridge legacy loop the initial
`generate` call carries the resolved tools and no results, and every
follow-up call carries an *empty* tools list with the tool-results dict
accumulated over all previous rounds' responses starting from the empty
dict — never reset, with later rounds' duplicate keys overwriting
(`FollowChain`).  Only the older `src/core` `ToolBridge.execute` loop
re-offers the resolved tools: there every logged round carries exactly
the resolved tools. -/
theorem C9_followup_calls (gen : ProviderFn) (tb : List (String × Tool)) (prompt : String)
    (resolved : List Tool) (m : Int) (kwargs : List (String × PyVal)) :
    ((execute_with_provider gen tb prompt resolved m kwargs).2.head?.map GenRound.call) =
      some ⟨prompt, resolved, Option.none, kwargs⟩ ∧
    (∀ hd r0, (execute_with_provider gen tb prompt resolved m kwargs).2.head? = some hd →
      hd.resp = some r0 →
      FollowChain tb prompt kwargs [r0]
        ((execute_with_provider gen tb prompt resolved m kwargs).2.tail)) ∧
    (∀ toolsArg resolved', resolve_tools tb toolsArg = .ok resolved' →
      ∀ r ∈ (core_execute gen tb prompt toolsArg m).2,
        r.call.tools = resolved' ∧ r.call.prompt = prompt) := by
  refine ⟨?_, ?_, ?_⟩
  · simp only [execute_with_provider]
    cases hg0 : gen [⟨prompt, resolved, Option.none, kwargs⟩] with
    | error e => simp [hg0]
    | ok r0 =>
      obtain ⟨tail, htail, _⟩ := legacyLoop_chain gen tb prompt kwargs m.toNat r0 []
        [⟨⟨prompt, resolved, Option.none, kwargs⟩, some r0⟩] [] rfl
      simp only [hg0]
      rw [htail]
      rfl
  · intro hd r0 hhd hresp
    simp only [execute_with_provider] at hhd ⊢
    cases hg0 : gen [⟨prompt, resolved, Option.none, kwargs⟩] with
    | error e =>
      simp only [hg0, List.head?_cons, Option.some.injEq] at hhd
      rw [← hhd] at hresp
      exact absurd hresp (by simp)
    | ok r0' =>
      obtain ⟨tail, htail, hchain⟩ := legacyLoop_chain gen tb prompt kwargs m.toNat r0' []
        [⟨⟨prompt, resolved, Option.none, kwargs⟩, some r0'⟩] [] rfl
      simp only [hg0] at hhd ⊢
      rw [htail] at hhd ⊢
      simp only [List.cons_append, List.head?_cons, Option.some.injEq] at hhd
      rw [← hhd] at hresp
      simp only at hresp
      rw [← Option.some.inj hresp]
      simpa using hchain
  · intro toolsArg resolved' hresolve r hr
    simp only [core_execute, hresolve] at hr
    cases hg0 : gen [⟨prompt, resolved', Option.none, []⟩] with
    | error e =>
      simp only [hg0, List.mem_singleton] at hr
      subst hr
      exact ⟨rfl, rfl⟩
    | ok r0 =>
      simp only [hg0] at hr
      refine coreLoop_tools gen tb prompt resolved' m.toNat r0 [] _ ?_ r hr
      intro r' hr'
      simp only [List.mem_singleton] at hr'
      subst hr'
      exact ⟨rfl, rfl⟩

/-- A provider that never requests tools (for the core-loop witness). -/
def c9GenStop : ProviderFn := fun _ => .ok {}

/-- Witness for C9: the follow-up chain of the concrete legacy run, and
the re-offered tools of a concrete `src/core` run. -/
theorem C9_witness :
    FollowChain [] "p" [] [{ tool_calls := [⟨"t9", [], Option.none⟩] }]
      ((execute_with_provider c9Gen [] "p" [c9Tool] 10 []).2.tail) ∧
    (⟨⟨"p", [], Option.none, []⟩, some {}⟩ ∈ (core_execute c9GenStop [] "p" Option.none 1).2 →
      (⟨⟨"p", [], Option.none, []⟩, some {}⟩ : GenRound).call.tools = [] ∧
      (⟨⟨"p", [], Option.none, []⟩, some {}⟩ : GenRound).call.prompt = "p") := by
  have h := C9_followup_calls c9Gen [] "p" [c9Tool] 10 []
  have h2 := C9_followup_calls c9GenStop [] "p" [] 1 []
  refine ⟨?_, ?_⟩
  · exact h.2.1 ⟨⟨"p", [c9Tool], Option.none, []⟩,
      some { tool_calls := [⟨"t9", [], Option.none⟩] }⟩
      { tool_calls := [⟨"t9", [], Option.none⟩] } rfl rfl
  · exact h2.2.2 Option.none [] rfl ⟨⟨"p", [], Option.none, []⟩, some {}⟩

/-! ### Claim C10 -/

lemma alGet_alSet_self {α : Type} (d : List (String × α)) (k : String) (v : α) :
    alGet (alSet d k v) k = some v := by
  induction d with
  | nil => simp [alSet, alGet]
  | cons kv rest ih =>
    obtain ⟨k', v'⟩ := kv
    by_cases hk : k' = k
    · simp [alSet, hk, alGet]
    · simp [alSet, hk, alGet, ih]

lemma alGet_alSet_ne {α : Type} (d : List (String × α)) {k k' : String} (v : α)
    (h : k' ≠ k) : alGet (alSet d k v) k' = alGet d k' := by
  have h' : ¬ k = k' := fun hh => h hh.symm
  induction d with
  | nil => simp [alSet, alGet, h']
  | cons kv rest ih =>
    obtain ⟨k₀, v₀⟩ := kv
    by_cases hk : k₀ = k
    · subst hk
      simp [alSet, alGet, h']
    · simp [alSet, hk, alGet, ih]

lemma alGet_foldl_alSet :
    ∀ (tools : List Tool) (d₀ : List (String × Tool)) (n : String),
      alGet (tools.foldl (fun d t => alSet d t.name t) d₀) n =
        (match (tools.filter fun t => t.name == n).getLast? with
         | some t => some t
         | Option.none => alGet d₀ n) := by
  intro tools
  induction tools with
  | nil => intro d₀ n; simp
  | cons t rest ih =>
    intro d₀ n
    simp only [List.foldl_cons, List.filter_cons]
    by_cases hn : t.name = n
    · simp only [hn, beq_self_eq_true, if_pos]
      rw [ih]
      cases hl : (rest.filter fun t => t.name == n).getLast? with
      | some t' => simp [List.getLast?_cons, hl]
      | none =>
        have hfe : (rest.filter fun t => t.name == n) = [] := by
          cases hc : rest.filter fun t => t.name == n
          · rfl
          · rw [hc] at hl
            simp [List.getLast?_cons] at hl
        simp [hfe, hn, alGet_alSet_self]
    · have hb : (t.name == n) = false := beq_eq_false_iff_ne.mpr hn
      simp only [hb, Bool.false_eq_true, if_false]
      rw [ih]
      cases hl : (rest.filter fun t => t.name == n).getLast? with
      | some t' => simp [hl]
      | none => simp [hl, alGet_alSet_ne _ _ (fun hh => hn hh.symm)]

/-- The tool a supplied tool call would invoke but never registered. -/
def c10Tool : Tool :=
  { name := "c10", description := "supplied but unregistered",
    function := some fun _ => .ok (.int 42) }

/-- A provider that calls tool `c10` once and then stops. -/
def c10Gen : ProviderFn := fun hist =>
  if hist.length ≤ 1 then .ok { tool_calls := [⟨"c10", [], Option.none⟩] }
  else .ok { content := some "done" }

/-- Claim C10 counterexample: the error result stored for the
unregistered tool call is `str(KeyError(...))`, i.e. the message wrapped
in quote characters — not the bare
`No tool with name 'c10' is registered` the claim states. -/
theorem C10_counterexample :
    ((execute_with_provider c10Gen [] "p" [c10Tool] 10 []).2.map fun r =>
        r.call.tool_results) =
      [Option.none,
       some [("c10",
         PyVal.dict [("error", PyVal.str "\"No tool with name 'c10' is registered\""),
                     ("success", PyVal.bool false)])]] ∧
    "\"No tool with name 'c10' is registered\"" ≠ "No tool with name 'c10' is registered" :=
  ⟨rfl, by decide⟩

/-- Claim C10 (amended): the legacy loop resolves invocations through the
Bridge registry: a tool call whose name is not registered produces
`{"error": str(KeyError("No tool with name '<name>' is registered")),
"success": false}` — the quoted rendering `pyReprStr` of the message,
since `str` of a `KeyError` is the `repr` of its argument — even though
the initial `generate` call offers the supplied tools to the provider.
The adapter path instead builds its invocation map from the supplied
tools themselves (for each name, the last supplied tool of that name),
and invoking through that map succeeds. -/
theorem C10_registry_vs_supplied :
    (∀ (tb : List (String × Tool)) (tc : ToolCall),
      alGet tb tc.tool_name = Option.none →
      bridgeToolResult tb tc =
        PyVal.dict [("error", PyVal.str
            (pyReprStr ("No tool with name '" ++ tc.tool_name ++ "' is registered"))),
          ("success", PyVal.bool false)]) ∧
    (∀ (gen : ProviderFn) (tb : List (String × Tool)) (prompt : String)
      (resolved : List Tool) (m : Int) (kwargs : List (String × PyVal)),
      ((execute_with_provider gen tb prompt resolved m kwargs).2.head?.map fun r =>
          r.call.tools) = some resolved) ∧
    (∀ (tools : List Tool) (n : String),
      alGet (toolsDictOf (some tools)) n = (tools.filter fun t => t.name == n).getLast?) ∧
    (∀ (tools : List Tool) (tc : ToolCall) (t : Tool) (v : PyVal),
      alGet (toolsDictOf (some tools)) tc.tool_name = some t →
      t.invoke tc.arguments = .ok v →
      process_tool_call tc (toolsDictOf (some tools)) =
        PyVal.dict [("result", v), ("success", PyVal.bool true)]) := by
  refine ⟨?_, ?_, ?_, ?_⟩
  · intro tb tc h
    simp [bridgeToolResult, get_tool, h, Except.bind, Exc.pyStr]
  · intro gen tb prompt resolved m kwargs
    simp only [execute_with_provider]
    cases hg0 : gen [⟨prompt, resolved, Option.none, kwargs⟩] with
    | error e => simp [hg0]
    | ok r0 =>
      obtain ⟨tail, htail, _⟩ := legacyLoop_chain gen tb prompt kwargs m.toNat r0 []
        [⟨⟨prompt, resolved, Option.none, kwargs⟩, some r0⟩] [] rfl
      simp only [hg0]
      rw [htail]
      rfl
  · intro tools n
    have h := alGet_foldl_alSet tools [] n
    simp only [toolsDictOf, Option.getD_some]
    rw [h]
    cases hl : (tools.filter fun t => t.name == n).getLast? <;> simp [alGet]
  · intro tools tc t v h hv
    simp [process_tool_call, h, hv]

/-- Witness for C10: the quoted not-found result for an unregistered
call, and the successful adapter-path invocation of the same tool when
supplied directly. -/
theorem C10_witness :
    bridgeToolResult [] ⟨"c10", [], Option.none⟩ =
      PyVal.dict [("error", PyVal.str
          (pyReprStr ("No tool with name '" ++ "c10" ++ "' is registered"))),
        ("success", PyVal.bool false)] ∧
    process_tool_call ⟨"c10", [], Option.none⟩ (toolsDictOf (some [c10Tool])) =
      PyVal.dict [("result", PyVal.int 42), ("success", PyVal.bool true)] := by
  have h := C10_registry_vs_supplied
  exact ⟨h.1 [] ⟨"c10", [], Option.none⟩ rfl,
    h.2.2.2 [c10Tool] ⟨"c10", [], Option.none⟩ c10Tool (PyVal.int 42) rfl rfl⟩

end LLMToolBridge
